import Mathlib

/-!
A verification development for the `mathbycases` repository, which consists of
three Python scripts:

* `download_pdfs.py` — parses a flat link file into `(title, url)` pairs
  (`extract_pdf_urls`), derives safe filenames (`sanitize_filename`), tracks
  completed downloads in a JSON ledger keyed by a truncated SHA-256 of the URL
  (`DownloadTracker`), and downloads files with bounded retries
  (`download_file`, `main`).
* `fetch_all_cases.py` — parses case-study anchor elements
  (`parse_case_element`) and paginates through a "Load More" API
  (`fetch_all_cases`).
* `mit/scrape_case_studies.py` — collects case-study subgroup links
  (`get_case_study_links`).

The embedding below translates these functions into executable Lean
definitions.  External libraries (`requests`, `BeautifulSoup`, the clock and
the filesystem) are modelled as explicit inputs: HTTP responses become oracle
functions, parsed HTML becomes structures carrying the fields the code reads,
the download directory becomes an association list from paths to byte lists,
and the tracking file on disk becomes an `Option (Option TrackingData)`
(absent / unparsable / parsed).  Machine-level details that the scripts never
exercise (non-ASCII case folding, percent-escapes in query strings) are noted
at the definitions that simplify them.
-/

/-! ## Python string primitives

Helpers mirroring the Python `str` operations used by the scripts.  Python's
`str.strip()` and the regex class `\s` use the Unicode whitespace set; the
characters below are the ones Python's `str.isspace` recognises (ASCII
whitespace, the C1 separators, and the Unicode space separators). -/

/-- The Unicode whitespace set used by Python's `str.strip()` and `\s`. -/
def isPySpace (c : Char) : Bool :=
  c = ' ' || c = '\t' || c = '\n' || c = '\r' ||
  c = '\x0b' || c = '\x0c' ||
  c = '\x1c' || c = '\x1d' || c = '\x1e' || c = '\x1f' ||
  c = '\x85' || c = '\xa0' ||
  c = '\u1680' ||
  ('\u2000' ≤ c && c ≤ '\u200a') ||
  c = '\u2028' || c = '\u2029' || c = '\u202f' || c = '\u205f' ||
  c = '\u3000'

/-- Strip leading characters satisfying `p`, then trailing ones. -/
def stripL (p : Char → Bool) (l : List Char) : List Char :=
  ((l.dropWhile p).reverse.dropWhile p).reverse

/-- Python `str.strip()` (no argument): remove leading and trailing
Python whitespace. -/
def pyStrip (s : String) : String :=
  String.mk (stripL isPySpace s.data)

/-- Python `s.startswith(p)`. -/
def startsWithS (s p : String) : Bool :=
  p.data.isPrefixOf s.data

/-- Does the character list `ndl` occur contiguously inside `hay`?
Mirrors Python's `ndl in hay` on strings. -/
def listContains (ndl : List Char) : List Char → Bool
  | [] => ndl.isEmpty
  | c :: rest => ndl.isPrefixOf (c :: rest) || listContains ndl rest

/-- Python `ndl in s` (substring containment). -/
def containsS (s ndl : String) : Bool :=
  listContains ndl.data s.data

/-- Python `str.lower()`, restricted to ASCII case folding.  The scripts only
use `lower` to look for the ASCII markers `".pdf"` and `"case"`, which ASCII
folding reproduces exactly. -/
def lowerS (s : String) : String :=
  String.mk (s.data.map Char.toLower)

/-- Python whitespace-trimmed string, as used by `a.strip()` inside list
comprehensions. -/
def pyStripStr (s : String) : String := pyStrip s

/-- Python `s[n:]` on character counts. -/
def dropChars (n : Nat) (s : String) : String := String.mk (s.data.drop n)

/-- Split a character list at every comma (Python `s.split(',')`). -/
def splitComma : List Char → List (List Char)
  | [] => [[]]
  | c :: rest =>
    let r := splitComma rest
    if c = ',' then [] :: r
    else
      match r with
      | [] => [[c]]
      | h :: t => (c :: h) :: t

/-- Fuel-driven splitter on a non-empty separator sequence, scanning left to
right (the recursion consumes at least one character per step, so fuel equal
to the input length suffices). -/
def splitOnLF (sep : List Char) : Nat → List Char → List (List Char)
  | _, [] => [[]]
  | 0, l => [l]
  | fuel + 1, c :: rest =>
    if sep.isPrefixOf (c :: rest) then
      [] :: splitOnLF sep fuel ((c :: rest).drop sep.length)
    else
      match splitOnLF sep fuel rest with
      | [] => [[c]]
      | h :: t => (c :: h) :: t

/-- Python `s.split(sep)` for a non-empty separator. -/
def pySplit (sep : String) (s : String) : List String :=
  (splitOnLF sep.data s.data.length s.data).map String.mk

/-- Join strings with a separator (Python `sep.join(...)`). -/
def joinSep (sep : String) : List String → String
  | [] => ""
  | [x] => x
  | x :: y :: rest => x ++ sep ++ joinSep sep (y :: rest)

/-! ## `download_pdfs.py`: link extraction

`extract_pdf_urls` reads the links file line by line.  Each line is
stripped; blank lines and banner lines are skipped; `^\d+\.\s+(.+)$` sets the
current title; a line starting with `http` and containing `.pdf`
(case-insensitively) emits one `(title, url)` pair.  The regexes below are
translated for the strings the function actually matches them against:
stripped single lines (no interior newline, no trailing whitespace), on which
greedy matching without backtracking coincides with Python's semantics. -/

/-- Python `re.match(r'^\d+\.\s+(.+)$', line)` on a stripped line, returning
the captured group: one or more ASCII digits, a literal dot, one or more
whitespace characters, then a non-empty remainder. -/
def parseTitleLine (l : List Char) : Option (List Char) :=
  let ds := l.takeWhile Char.isDigit
  let r1 := l.dropWhile Char.isDigit
  if ds.isEmpty then none
  else
    match r1 with
    | '.' :: r2 =>
      let sp := r2.takeWhile isPySpace
      let r3 := r2.dropWhile isPySpace
      if sp.isEmpty then none
      else if r3.isEmpty then none
      else some r3
    | _ => none

/-- Python `re.match(r'(?:FULL CASE|PART \d+):\s+(.+)', line)` together with
`re.match(r'(FULL CASE|PART \d+):', line).group(1)`: returns
`(label, url)` where `label` is `FULL CASE` or `PART <digits>` and `url` is
everything after the colon and the following whitespace run. -/
def parseLabeled (l : List Char) : Option (List Char × List Char) :=
  let afterLabel : List Char → List Char → Option (List Char × List Char) :=
    fun lab rest =>
      match rest with
      | ':' :: r2 =>
        let sp := r2.takeWhile isPySpace
        let r3 := r2.dropWhile isPySpace
        if sp.isEmpty then none
        else if r3.isEmpty then none
        else some (lab, r3)
      | _ => none
  if ("FULL CASE".data).isPrefixOf l then
    afterLabel "FULL CASE".data (l.drop 9)
  else if ("PART ".data).isPrefixOf l then
    let tail5 := l.drop 5
    let ds := tail5.takeWhile Char.isDigit
    let rest := tail5.dropWhile Char.isDigit
    if ds.isEmpty then none
    else afterLabel ("PART ".data ++ ds) rest
  else none

/-- The body of the `extract_pdf_urls` line loop on the already-stripped
line `l`: given the current title context, return the new title context and
the entry emitted for this line, if any. -/
def extractStepCore (ct : String) (l : String) : String × Option (String × String) :=
  if l = "" || startsWithS l "===" || startsWithS l "PDF DOWNLOAD"
      || startsWithS l "SUMMARY" then
    (ct, none)
  else
    match parseTitleLine l.data with
    | some t => (String.mk t, none)
    | none =>
      if startsWithS l "http" && containsS (lowerS l) ".pdf" then
        match parseLabeled l.data with
        | some (lab, url) =>
          (ct, some (ct ++ " - " ++ String.mk lab, String.mk url))
        | none => (ct, some (ct, l))
      else
        (ct, none)

/-- One iteration of the `extract_pdf_urls` line loop: the raw line is
stripped first (`line = line.strip()`). -/
def extractStep (ct : String) (line : String) : String × Option (String × String) :=
  extractStepCore ct (pyStrip line)

/-- The `extract_pdf_urls` line loop, starting from title context `ct`. -/
def extractGo (ct : String) : List String → List (String × String)
  | [] => []
  | line :: rest =>
    match extractStep ct line with
    | (ct2, none) => extractGo ct2 rest
    | (ct2, some e) => e :: extractGo ct2 rest

/-- `extract_pdf_urls` from `download_pdfs.py`, over the list of lines of the
links file: returns the `(title, url)` pairs in input order.  `current_title`
starts as the empty string. -/
def extract_pdf_urls (lines : List String) : List (String × String) :=
  extractGo "" lines

/-- The running title context after processing a list of lines (the value of
`current_title` in `extract_pdf_urls`). -/
def titleAfter (ct : String) : List String → String
  | [] => ct
  | line :: rest => titleAfter (extractStep ct line).1 rest

/-! ## `download_pdfs.py`: filename sanitisation -/

/-- The characters removed by `re.sub(r'[<>:"/\\|?*]', '', title)`. -/
def unsafeChars : List Char := ['<', '>', ':', '"', '/', '\\', '|', '?', '*']

/-- Python `re.sub(r'\s+', '_', s)`: replace every maximal whitespace run
with a single underscore.  The flag records whether the previous character
was part of a whitespace run already replaced. -/
def collapseWsGo (inRun : Bool) : List Char → List Char
  | [] => []
  | c :: rest =>
    if isPySpace c then
      if inRun then collapseWsGo true rest
      else '_' :: collapseWsGo true rest
    else
      c :: collapseWsGo false rest

/-- `sanitize_filename` from `download_pdfs.py`: drop unsafe characters,
collapse whitespace runs to `_`, truncate to 200 characters, append
`".pdf"`. -/
def sanitize_filename (title : String) : String :=
  let s1 := title.data.filter (fun c => !unsafeChars.contains c)
  let s2 := collapseWsGo false s1
  let s3 := if s2.length > 200 then s2.take 200 else s2
  String.mk (s3 ++ ".pdf".data)

/-! ## `download_pdfs.py`: the download tracker

`DownloadTracker` keys its ledger by `hashlib.sha256(url.encode()).hexdigest()[:16]`.
SHA-256 is embedded below over byte lists, with 32-bit words represented as
`Nat` reduced modulo `2^32` at every operation. -/

/-- UTF-8 encoding of one character (Python `str.encode()`). -/
def utf8Char (c : Char) : List Nat :=
  let n := c.toNat
  if n < 0x80 then [n]
  else if n < 0x800 then
    [0xC0 + n / 64, 0x80 + n % 64]
  else if n < 0x10000 then
    [0xE0 + n / 4096, 0x80 + (n / 64) % 64, 0x80 + n % 64]
  else
    [0xF0 + n / 262144, 0x80 + (n / 4096) % 64, 0x80 + (n / 64) % 64, 0x80 + n % 64]

/-- UTF-8 encoding of a string (Python `str.encode()`). -/
def utf8Bytes (s : String) : List Nat :=
  (s.data.map utf8Char).flatten

/-- Right rotation of a 32-bit word. -/
def rotr32 (k x : Nat) : Nat :=
  ((x >>> k) ||| (x <<< (32 - k))) &&& 0xFFFFFFFF

/-- SHA-256 small sigma 0: `rotr 7 ^^^ rotr 18 ^^^ shr 3`. -/
def ssig0 (x : Nat) : Nat := rotr32 7 x ^^^ rotr32 18 x ^^^ (x >>> 3)

/-- SHA-256 small sigma 1: `rotr 17 ^^^ rotr 19 ^^^ shr 10`. -/
def ssig1 (x : Nat) : Nat := rotr32 17 x ^^^ rotr32 19 x ^^^ (x >>> 10)

/-- SHA-256 big sigma 0: `rotr 2 ^^^ rotr 13 ^^^ rotr 22`. -/
def bsig0 (x : Nat) : Nat := rotr32 2 x ^^^ rotr32 13 x ^^^ rotr32 22 x

/-- SHA-256 big sigma 1: `rotr 6 ^^^ rotr 11 ^^^ rotr 25`. -/
def bsig1 (x : Nat) : Nat := rotr32 6 x ^^^ rotr32 11 x ^^^ rotr32 25 x

/-- The SHA-256 round constants. -/
def sha256K : List Nat :=
  [1116352408, 1899447441, 3049323471, 3921009573,
   961987163, 1508970993, 2453635748, 2870763221,
   3624381080, 310598401, 607225278, 1426881987,
   1925078388, 2162078206, 2614888103, 3248222580,
   3835390401, 4022224774, 264347078, 604807628,
   770255983, 1249150122, 1555081692, 1996064986,
   2554220882, 2821834349, 2952996808, 3210313671,
   3336571891, 3584528711, 113926993, 338241895,
   666307205, 773529912, 1294757372, 1396182291,
   1695183700, 1986661051, 2177026350, 2456956037,
   2730485921, 2820302411, 3259730800, 3345764771,
   3516065817, 3600352804, 4094571909, 275423344,
   430227734, 506948616, 659060556, 883997877,
   958139571, 1322822218, 1537002063, 1747873779,
   1955562222, 2024104815, 2227730452, 2361852424,
   2428436474, 2756734187, 3204031479, 3329325298]

/-- The eight working variables of the SHA-256 compression function. -/
structure Hash8 where
  a : Nat
  b : Nat
  c : Nat
  d : Nat
  e : Nat
  f : Nat
  g : Nat
  h : Nat
deriving DecidableEq

/-- The SHA-256 initial hash value. -/
def sha256H0 : Hash8 :=
  ⟨1779033703, 3144134277, 1013904242, 2773480762,
   1359893119, 2600822924, 528734635, 1541459225⟩

/-- One SHA-256 round, consuming a `(K[i], W[i])` pair. -/
def sha256Round (st : Hash8) (kw : Nat × Nat) : Hash8 :=
  let ch := (st.e &&& st.f) ^^^ ((st.e ^^^ 0xFFFFFFFF) &&& st.g)
  let temp1 := (st.h + bsig1 st.e + ch + kw.1 + kw.2) &&& 0xFFFFFFFF
  let maj := (st.a &&& st.b) ^^^ (st.a &&& st.c) ^^^ (st.b &&& st.c)
  let temp2 := (bsig0 st.a + maj) &&& 0xFFFFFFFF
  ⟨(temp1 + temp2) &&& 0xFFFFFFFF, st.a, st.b, st.c,
   (st.d + temp1) &&& 0xFFFFFFFF, st.e, st.f, st.g⟩

/-- Extend the 16-word message schedule by `n` further words. -/
def extendW : Nat → List Nat → List Nat
  | 0, ws => ws
  | n + 1, ws =>
    let i := ws.length
    let x := (ssig1 (ws.getD (i - 2) 0) + ws.getD (i - 7) 0 +
              ssig0 (ws.getD (i - 15) 0) + ws.getD (i - 16) 0) &&& 0xFFFFFFFF
    extendW n (ws ++ [x])

/-- Split a byte list into sublists of `k` bytes (fuel-driven so that the
definition is structurally recursive and kernel-reducible). -/
def chunksF (k : Nat) : Nat → List Nat → List (List Nat)
  | 0, _ => []
  | _ + 1, [] => []
  | fuel + 1, b :: bs => ((b :: bs).take k) :: chunksF k fuel ((b :: bs).drop k)

/-- A big-endian 32-bit word from a list of 4 bytes. -/
def wordOfBytes (bs : List Nat) : Nat :=
  bs.foldl (fun acc b => acc * 256 + b) 0

/-- The 4 big-endian bytes of a 32-bit word. -/
def toBytesBE (w : Nat) : List Nat :=
  [w / 2 ^ 24 % 256, w / 2 ^ 16 % 256, w / 2 ^ 8 % 256, w % 256]

/-- The SHA-256 compression function on one 64-byte block. -/
def sha256Compress (h0 : Hash8) (block : List Nat) : Hash8 :=
  let w16 := (chunksF 4 block.length block).map wordOfBytes
  let w := extendW 48 w16
  let st := (sha256K.zip w).foldl sha256Round h0
  ⟨(h0.a + st.a) &&& 0xFFFFFFFF, (h0.b + st.b) &&& 0xFFFFFFFF,
   (h0.c + st.c) &&& 0xFFFFFFFF, (h0.d + st.d) &&& 0xFFFFFFFF,
   (h0.e + st.e) &&& 0xFFFFFFFF, (h0.f + st.f) &&& 0xFFFFFFFF,
   (h0.g + st.g) &&& 0xFFFFFFFF, (h0.h + st.h) &&& 0xFFFFFFFF⟩

/-- SHA-256 padding: append `0x80`, zeros to 56 mod 64, and the 8-byte
big-endian bit length. -/
def sha256Pad (msg : List Nat) : List Nat :=
  let l := msg.length
  let zeros := (119 - l % 64) % 64
  let bitLen := 8 * l
  msg ++ [0x80] ++ List.replicate zeros 0 ++
    [bitLen / 2 ^ 56 % 256, bitLen / 2 ^ 48 % 256, bitLen / 2 ^ 40 % 256,
     bitLen / 2 ^ 32 % 256, bitLen / 2 ^ 24 % 256, bitLen / 2 ^ 16 % 256,
     bitLen / 2 ^ 8 % 256, bitLen % 256]

/-- The SHA-256 digest of a byte list, as a list of 32 bytes. -/
def sha256Bytes (msg : List Nat) : List Nat :=
  let padded := sha256Pad msg
  let final := (chunksF 64 padded.length padded).foldl sha256Compress sha256H0
  ([final.a, final.b, final.c, final.d,
    final.e, final.f, final.g, final.h].map toBytesBE).flatten

/-- The sixteen lowercase hexadecimal digit characters. -/
def hexDigits : List Char :=
  "0123456789abcdef".data

/-- The hexadecimal digit character for `n % 16`. -/
def hexDigit (n : Nat) : Char :=
  hexDigits.getD (n % 16) '0'

/-- The two lowercase hex characters of one byte. -/
def byteToHex (b : Nat) : List Char :=
  [hexDigit (b / 16), hexDigit b]

/-- Python `hashlib.sha256(bs).hexdigest()` as a character list. -/
def sha256HexChars (msg : List Nat) : List Char :=
  ((sha256Bytes msg).map byteToHex).flatten

/-! ## `download_pdfs.py`: tracker state and persistence

`DownloadTracker` holds an in-memory mapping `data["downloads"]` keyed by the
URL hash, loads it from the tracking file on construction, and rewrites the
whole file after each `mark_downloaded`.  The JSON file on disk is modelled
as `Option (Option TrackingData)`: `none` is an absent file, `some none` an
unparsable one (the `json.JSONDecodeError` branch), `some (some d)` a file
that parses back to `d` (the round-trip guarantee of `json.dump`/`json.load`
on this data shape). -/

/-- One value of the `downloads` mapping: the record written by
`mark_downloaded`. -/
structure TrackRecord where
  url : String
  filename : String
  title : String
  downloaded_at : String
deriving DecidableEq

/-- The tracker's in-memory data: the `downloads` mapping as an ordered
association list from URL-hash keys to records (insertion order, as in a
Python dict). -/
structure TrackingData where
  downloads : List (String × TrackRecord)
deriving DecidableEq

/-- The tracking file on disk. -/
def LedgerDisk : Type := Option (Option TrackingData)

/-- `DownloadTracker._load_tracking_data`: an absent or unparsable file
yields a fresh empty mapping. -/
def load_tracking_data (disk : LedgerDisk) : TrackingData :=
  match disk with
  | none => ⟨[]⟩
  | some none => ⟨[]⟩
  | some (some d) => d

/-- `DownloadTracker._save_tracking_data`: rewrite the tracking file with the
current data. -/
def save_tracking_data (d : TrackingData) : LedgerDisk :=
  some (some d)

/-- `DownloadTracker.get_url_hash`:
`hashlib.sha256(url.encode()).hexdigest()[:16]`. -/
def get_url_hash (url : String) : String :=
  String.mk ((sha256HexChars (utf8Bytes url)).take 16)

/-- Python dict assignment `m[k] = v`: replace the value in place if the key
is present, otherwise append at the end. -/
def dictInsert (k : String) (v : TrackRecord) :
    List (String × TrackRecord) → List (String × TrackRecord)
  | [] => [(k, v)]
  | (k2, v2) :: rest =>
    if k2 = k then (k, v) :: rest else (k2, v2) :: dictInsert k v rest

/-- `DownloadTracker.is_downloaded`: is the URL's hash a key of the
`downloads` mapping? -/
def is_downloaded (d : TrackingData) (url : String) : Bool :=
  (d.downloads.lookup (get_url_hash url)).isSome

/-- `DownloadTracker.mark_downloaded` (in-memory effect): store the record
under the URL's hash.  `now` models `time.strftime(...)` at the call. -/
def mark_downloaded (d : TrackingData) (url filename title now : String) :
    TrackingData :=
  ⟨dictInsert (get_url_hash url) ⟨url, filename, title, now⟩ d.downloads⟩

/-! ## `download_pdfs.py`: the download loop

The download directory is an association list from paths to byte-list file
contents.  A `requests.get`/`iter_content` interaction is an oracle from the
attempt index to an `AttemptResult`: either the full content arrives, or a
transport error (`requests.exceptions.RequestException`) is raised — before
the output file was opened (`none`) or after a partial prefix was written
(`some p`). -/

/-- The download directory: paths mapped to file contents. -/
def FS : Type := List (String × List Nat)

/-- Look up a file's content. -/
def lookupFile (fs : FS) (p : String) : Option (List Nat) :=
  (fs : List (String × List Nat)).lookup p

/-- Write (create or overwrite) a file. -/
def setFile (p : String) (content : List Nat) : FS → FS
  | [] => [(p, content)]
  | (q, d) :: rest =>
    if q = p then (p, content) :: rest else (q, d) :: setFile p content rest

/-- `os.remove` (plus the prior `os.path.exists` guard): drop every entry at
the path. -/
def removeFile (p : String) : FS → FS
  | [] => []
  | (q, d) :: rest => if q = p then removeFile p rest else (q, d) :: removeFile p rest

/-- The outcome of one `requests.get` attempt. -/
inductive AttemptResult where
  /-- The request succeeded and the full body was streamed to the file. -/
  | success (content : List Nat)
  /-- A `RequestException` was raised; `written = none` if the error came
  before the output file was opened, `some p` if the prefix `p` had been
  written when the stream broke. -/
  | failure (written : Option (List Nat))
deriving DecidableEq

/-- `MAX_RETRIES` from `download_pdfs.py`. -/
def MAX_RETRIES : Nat := 3

/-- The retry loop of `download_file`, at attempt index `attempt` with
`rem` loop iterations left (`rem = retries - attempt` on entry).  Returns
`(success, directory contents after, number of attempts made)`.  On the last
failed attempt the partially-written file at `path` is deleted. -/
def downloadLoop (oracle : Nat → AttemptResult) (path : String) :
    FS → Nat → Nat → Bool × FS × Nat
  | fs, _, 0 => (false, fs, 0)
  | fs, attempt, rem + 1 =>
    match oracle attempt with
    | .success content => (true, setFile path content fs, 1)
    | .failure written =>
      let fs1 := match written with
        | none => fs
        | some p => setFile path p fs
      match rem with
      | 0 => (false, removeFile path fs1, 1)
      | r + 1 =>
        let res := downloadLoop oracle path fs1 (attempt + 1) (r + 1)
        (res.1, res.2.1, res.2.2 + 1)

/-- `download_file` from `download_pdfs.py`: try up to `retries` attempts,
returning success, the resulting directory contents, and the number of
attempts made. -/
def download_file (oracle : Nat → AttemptResult) (path : String) (fs : FS)
    (retries : Nat) : Bool × FS × Nat :=
  downloadLoop oracle path fs 0 retries

/-! ## `download_pdfs.py`: the main loop -/

/-- `DOWNLOAD_DIR` from `download_pdfs.py`. -/
def DOWNLOAD_DIR : String := "downloaded_pdfs"

/-- `os.path.join(DOWNLOAD_DIR, filename)` for the relative filenames
produced by `sanitize_filename`. -/
def outPath (filename : String) : String :=
  DOWNLOAD_DIR ++ "/" ++ filename

/-- The terminal outcome of one entry in the main loop. -/
inductive Outcome where
  | downloaded
  | skipped
  | failed
deriving DecidableEq

/-- The downloader's mutable state: the tracker's in-memory data, the
tracking file on disk, and the download directory. -/
structure DState where
  data : TrackingData
  disk : LedgerDisk
  fs : FS

/-- The body of the `main` loop of `download_pdfs.py` for one
`(title, url)` entry: skip if the URL is already tracked; else adopt a
pre-existing file at the derived path into the ledger; else download with
`MAX_RETRIES` attempts, marking the ledger only on success.  `oracle url`
gives the transport behaviour of `url`, attempt by attempt. -/
def processEntry (oracle : String → Nat → AttemptResult) (now : String)
    (st : DState) (entry : String × String) : DState × Outcome :=
  let title := entry.1
  let url := entry.2
  if is_downloaded st.data url then
    (st, .skipped)
  else
    let filename := sanitize_filename title
    let path := outPath filename
    if (lookupFile st.fs path).isSome then
      let d2 := mark_downloaded st.data url filename title now
      ({ st with data := d2, disk := save_tracking_data d2 }, .skipped)
    else
      let res := download_file (oracle url) path st.fs MAX_RETRIES
      if res.1 then
        let d2 := mark_downloaded st.data url filename title now
        ({ data := d2, disk := save_tracking_data d2, fs := res.2.1 }, .downloaded)
      else
        ({ st with fs := res.2.1 }, .failed)

/-- The full batch loop of `main`: process the entries in order, counting
`(downloaded, skipped, failed)`. -/
def runEntries (oracle : String → Nat → AttemptResult) (now : String) :
    DState → List (String × String) → DState × Nat × Nat × Nat
  | st, [] => (st, 0, 0, 0)
  | st, e :: rest =>
    let r1 := processEntry oracle now st e
    let r2 := runEntries oracle now r1.1 rest
    match r1.2 with
    | .downloaded => (r2.1, r2.2.1 + 1, r2.2.2.1, r2.2.2.2)
    | .skipped => (r2.1, r2.2.1, r2.2.2.1 + 1, r2.2.2.2)
    | .failed => (r2.1, r2.2.1, r2.2.2.1, r2.2.2.2 + 1)

/-! ## `fetch_all_cases.py`: parsing one case element

A parsed `<a>` element is modelled by the fields `parse_case_element`
actually reads from BeautifulSoup: the `href` attribute, the stripped text of
the first `<h3>` descendant (if any), the stripped texts of all `<p>`
descendants in document order, and the stripped text of the first `<div>`
descendant (if any). -/

/-- A case-study anchor element as seen by `parse_case_element`. -/
structure Elem where
  href : String
  h3 : Option String
  ps : List String
  divTxt : Option String
deriving DecidableEq

/-- The record built by `parse_case_element` (absent dict keys are `none`). -/
structure CaseData where
  url : String
  title : Option String
  authors : List String
  description : String
  date : String
  categories : Option String
deriving DecidableEq

/-- The twelve month names tested by the date heuristic. -/
def monthNames : List String :=
  ["January", "February", "March", "April", "May", "June", "July",
   "August", "September", "October", "November", "December"]

/-- `[a.strip() for a in authors_text.split(',')]`. -/
def splitTrimCommas (s : String) : List String :=
  (splitComma s.data).map (fun l => String.mk (stripL isPySpace l))

/-- Does this paragraph text pass the authors test `text.startswith('By ')`? -/
def isByPara (t : String) : Bool := startsWithS t "By "

/-- Does this paragraph text pass the date test
`',' in text and any(month in text for month in [...])`? -/
def isDatePara (t : String) : Bool :=
  containsS t "," && monthNames.any (fun m => containsS t m)

/-- The `for p in p_tags` loop of `parse_case_element`, folding the state
`(authors, description, date)` over the stripped paragraph texts. -/
def paraFold : List String × String × String → List String →
    List String × String × String
  | st, [] => st
  | (authors, description, date), t :: rest =>
    if isByPara t then
      paraFold (splitTrimCommas (dropChars 3 t), description, date) rest
    else if isDatePara t then
      paraFold (authors, description, t) rest
    else if t.length > description.length then
      paraFold (authors, t, date) rest
    else
      paraFold (authors, description, date) rest

/-- `parse_case_element` from `fetch_all_cases.py`. -/
def parse_case_element (e : Elem) : CaseData :=
  let url0 := e.href
  let url := if url0 ≠ "" && !startsWithS url0 "http" then
    "https://mitsloan.mit.edu" ++ url0 else url0
  let st := paraFold ([], "", "") e.ps
  { url := url
    title := e.h3
    authors := st.1
    description := st.2.1
    date := st.2.2
    categories := e.divTxt }

/-! ## `fetch_all_cases.py`: pagination -/

/-- `case_data.get('title')` is truthy: the element had an `<h3>` with
non-empty stripped text.  Returns the record when kept. -/
def keepTitled (c : CaseData) : Option CaseData :=
  match c.title with
  | some t => if t ≠ "" then some c else none
  | none => none

/-- The href filter of the pagination loop:
`href and href.startswith('/teaching-resources-library/')`. -/
def isLibraryHref (href : String) : Bool :=
  startsWithS href "/teaching-resources-library/"

/-- The href filter of the initial page, which additionally excludes the
listing page itself. -/
def isInitialCaseHref (href : String) : Bool :=
  isLibraryHref href &&
    href ≠ "/teaching-resources-library/mit-sloan-case-studies-0"

/-- An HTML fragment returned by the Load More API: its raw text and the
anchor elements BeautifulSoup finds in it. -/
structure Fragment where
  text : String
  anchors : List Elem
deriving DecidableEq

/-- One response of the Load More API: a transport error
(`requests.exceptions.RequestException`, including non-success statuses via
`raise_for_status`) or a body. -/
inductive ApiResponse where
  | err
  | ok (frag : Fragment)
deriving DecidableEq

/-- The initial listing page: its anchor elements and the `Load More`
affordance (`soup.find('a', string='Load More')` and its `href`,
`none` when the button is absent). -/
structure Page where
  anchors : List Elem
  loadMoreHref : Option String
deriving DecidableEq

/-- The query string of a URL as `urllib.parse.urlparse(url).query`: the part
after the first `?`, with the fragment (everything from the first `#`) cut
off beforehand. -/
def queryOf (url : String) : String :=
  let noFrag := (pySplit "#" url).headD ""
  match pySplit "?" noFrag with
  | _ :: rest@(_ :: _) => joinSep "?" rest
  | _ => ""

/-- `urllib.parse.parse_qs` on the pairs the scripts use: split on `&`,
split each field at its first `=`, and drop fields with no `=` or an empty
value (`keep_blank_values=False`).  Percent-escapes and `+` are not decoded;
the pagination parameters the code extracts (`pid`, `base_nid`, `offset`)
are plain digit strings. -/
def parse_qs (qs : String) : List (String × String) :=
  (pySplit "&" qs).filterMap (fun kv =>
    match pySplit "=" kv with
    | k :: rest@(_ :: _) =>
      let v := joinSep "=" rest
      if v = "" then none else some (k, v)
    | _ => none)

/-- `params.get(key, [default])[0]`: the first value listed for `key`. -/
def firstParam (ps : List (String × String)) (k : String) : Option String :=
  (ps.find? (fun p => p.1 = k)).map (fun p => p.2)

/-- Python `int(s)` on an optionally signed decimal string (underscore
separators are not modelled); `none` models the `ValueError`. -/
def pyInt? (s : String) : Option Int :=
  let t := (pyStrip s).data
  let digitsVal : List Char → Option Nat := fun ds =>
    if ds.isEmpty || !ds.all Char.isDigit then none
    else some (ds.foldl (fun acc c => acc * 10 + (c.toNat - 48)) 0)
  match t with
  | '+' :: ds => (digitsVal ds).map (fun n => (n : Int))
  | '-' :: ds => (digitsVal ds).map (fun n => -(n : Int))
  | ds => (digitsVal ds).map (fun n => (n : Int))

/-- The titled records extracted from one API fragment: anchors with a
library href, parsed, keeping those with a truthy title. -/
def batchRecords (frag : Fragment) : List CaseData :=
  ((frag.anchors.filter (fun a => isLibraryHref a.href)).map
    parse_case_element).filterMap keepTitled

/-- The titled records extracted from the initial page: anchors with a
library href other than the listing page itself that contain an `<h3>`. -/
def initialRecords (page : Page) : List CaseData :=
  (((page.anchors.filter (fun a => isInitialCaseHref a.href)).filter
      (fun a => a.h3.isSome)).map parse_case_element).filterMap keepTitled

/-- The `while True` pagination loop of `fetch_all_cases`: request the API at
the current offset; stop on a transport error, an empty or whitespace-only
body, or a fragment without matching anchors; otherwise collect the batch
records and advance the offset by 10.  `fuel` bounds the number of
iterations of the otherwise unbounded loop. -/
def pageLoop (api : String → String → Int → ApiResponse) (pid nid : String) :
    Int → Nat → List CaseData
  | _, 0 => []
  | offset, fuel + 1 =>
    match api pid nid offset with
    | .err => []
    | .ok frag =>
      if pyStrip frag.text = "" then []
      else if (frag.anchors.filter (fun a => isLibraryHref a.href)).isEmpty then []
      else batchRecords frag ++ pageLoop api pid nid (offset + 10) fuel

/-- `fetch_all_cases` from `fetch_all_cases.py`: collect the initial page's
records; if a usable `Load More` affordance with `pid` and `base_nid`
parameters exists, keep requesting the API from the parsed starting offset
(default `'10'`).  The result is `none` exactly when Python would crash with
`ValueError` converting the `offset` parameter with `int(...)`. -/
def fetch_all_cases (page : Page) (api : String → String → Int → ApiResponse)
    (fuel : Nat) : Option (List CaseData) :=
  let initial := initialRecords page
  match page.loadMoreHref with
  | none => some initial
  | some href =>
    if href = "" then some initial
    else
      let params := parse_qs (queryOf href)
      let pid? := firstParam params "pid"
      let nid? := firstParam params "base_nid"
      match pyInt? ((firstParam params "offset").getD "10") with
      | none => none
      | some offset0 =>
        match pid?, nid? with
        | some pid, some nid =>
          some (initial ++ pageLoop api pid nid offset0 fuel)
        | _, _ => some initial

/-! ## `mit/scrape_case_studies.py` -/

/-- An anchor with an `href` attribute, as iterated by
`soup.find_all('a', href=True)`: its href and its stripped text. -/
structure LinkA where
  href : String
  txt : String
deriving DecidableEq

/-- One collected subgroup link. -/
structure CSLink where
  title : String
  url : String
deriving DecidableEq

/-- The body of the link-collection loop of `get_case_study_links`: keep
hrefs containing `teaching-resources-library` and (case-insensitively)
`case`, resolve them against the base URL, and append them when the resolved
URL is new, differs from the base URL, and the anchor text is non-empty.
`urljoin` models `urllib.parse.urljoin`. -/
def scrapeStep (urljoin : String → String → String) (base : String)
    (acc : List CSLink) (l : LinkA) : List CSLink :=
  if containsS l.href "teaching-resources-library" &&
      containsS (lowerS l.href) "case" then
    let full := urljoin base l.href
    if full ≠ base && !(acc.map (fun i => i.url)).contains full then
      if l.txt ≠ "" then acc ++ [⟨l.txt, full⟩] else acc
    else acc
  else acc

/-- `get_case_study_links` from `mit/scrape_case_studies.py`.  The fetched
and parsed page is `some anchors`, or `none` when `requests.get` (or
`raise_for_status`) raises a `RequestException`, in which case the function
returns the empty list. -/
def get_case_study_links (urljoin : String → String → String) (base : String)
    (fetched : Option (List LinkA)) : List CSLink :=
  match fetched with
  | none => []
  | some anchors => anchors.foldl (scrapeStep urljoin base) []

/-- Is there a whitespace run of length at least two? -/
def hasLongWsRun : List Char → Bool
  | a :: b :: r => (isPySpace a && isPySpace b) || hasLongWsRun (b :: r)
  | _ => false


/-- The last paragraph text matching the authors prefix `By `. -/
def lastByPara : List String → Option String
  | [] => none
  | t :: rest =>
    match lastByPara rest with
    | some r => some r
    | none => if isByPara t then some t else none

/-- Modelled from the claim's words (not from the code): the FIRST paragraph
text matching the authors prefix `By `.  The claim asserts the record's
authors come from this paragraph. -/
def firstByPara : List String → Option String
  | [] => none
  | t :: rest => if isByPara t then some t else firstByPara rest

/-- The comma-split, trimmed author list of an optional `By `-paragraph. -/
def authorsOfPara : Option String → List String
  | some t => splitTrimCommas (dropChars 3 t)
  | none => []


/-- Does any of the `rem` attempts starting at index `a` succeed?  This is
the transport-level success predicate of the retry loop: its value depends
only on the oracle, not on the directory contents. -/
def anySuccess (oracle : Nat → AttemptResult) : Nat → Nat → Bool
  | _, 0 => false
  | a, rem + 1 =>
    (match oracle a with
     | .success _ => true
     | .failure _ => false) || anySuccess oracle (a + 1) rem

/-! ## Helper lemmas -/

/-- A line starting with `http` cannot match the label regex
`(?:FULL CASE|PART \d+):` — its first character is `h`, not `F` or `P`.
This is why the label-handling branch of `extract_pdf_urls` is dead code. -/
theorem parseLabeled_none_of_http {l : List Char}
    (h : ("http".data).isPrefixOf l = true) : parseLabeled l = none := by
  match l with
  | [] => exact absurd h (by decide)
  | c :: rest =>
    have h1 : (('h' == c) && (['t', 't', 'p'].isPrefixOf rest)) = true := h
    have hc : c = 'h' := (eq_of_beq ((Bool.and_eq_true _ _).mp h1).1).symm
    subst hc
    rfl

/-- A line starting with `http` cannot match the title regex `^\d+\.\s+(.+)$`. -/
theorem parseTitleLine_none_of_http {l : List Char}
    (h : ("http".data).isPrefixOf l = true) : parseTitleLine l = none := by
  match l with
  | [] => exact absurd h (by decide)
  | c :: rest =>
    have h1 : (('h' == c) && (['t', 't', 'p'].isPrefixOf rest)) = true := h
    have hc : c = 'h' := (eq_of_beq ((Bool.and_eq_true _ _).mp h1).1).symm
    subst hc
    rfl

/-- On a stripped line that starts with `http` and contains `.pdf`
(lower-cased), the loop body emits the entry `(current title, whole line)`
and leaves the title context unchanged. -/
theorem extractStepCore_url (ct : String) (l : String)
    (hp : startsWithS l "http" = true)
    (hpdf : containsS (lowerS l) ".pdf" = true) :
    extractStepCore ct l = (ct, some (ct, l)) := by
  obtain ⟨ld⟩ := l
  match ld with
  | [] => exact absurd hp (by decide)
  | c :: rest =>
    have h1 : (('h' == c) && (['t', 't', 'p'].isPrefixOf rest)) = true := hp
    have hc : c = 'h' := (eq_of_beq ((Bool.and_eq_true _ _).mp h1).1).symm
    subst hc
    unfold extractStepCore
    have hskip : (decide (String.mk ('h' :: rest) = "") ||
        startsWithS ⟨'h' :: rest⟩ "===" || startsWithS ⟨'h' :: rest⟩ "PDF DOWNLOAD" ||
        startsWithS ⟨'h' :: rest⟩ "SUMMARY") = false := rfl
    rw [hskip]
    have htitle : parseTitleLine (String.mk ('h' :: rest)).data = none := rfl
    simp only [Bool.false_eq_true, if_false, htitle]
    rw [hp, hpdf]
    have hlab : parseLabeled (String.mk ('h' :: rest)).data = none :=
      parseLabeled_none_of_http hp
    simp [hlab]

/-- If the stripped line does not match the title regex, the title context
survives the step unchanged. -/
theorem extractStep_fst_of_no_title (ct : String) (line : String)
    (h : parseTitleLine (pyStrip line).data = none) :
    (extractStep ct line).1 = ct := by
  unfold extractStep extractStepCore
  rw [h]
  split
  · rfl
  · split
    · rename_i t heq
      exact Option.noConfusion heq
    · split
      · split <;> rfl
      · rfl

/-- `extractGo` equation: entry-free step. -/
theorem extractGo_cons_none {ct x ct2 : String} (rest : List String)
    (h : extractStep ct x = (ct2, none)) :
    extractGo ct (x :: rest) = extractGo ct2 rest := by
  simp only [extractGo]; rw [h]

/-- `extractGo` equation: entry-emitting step. -/
theorem extractGo_cons_some {ct x ct2 : String} {e : String × String}
    (rest : List String) (h : extractStep ct x = (ct2, some e)) :
    extractGo ct (x :: rest) = e :: extractGo ct2 rest := by
  simp only [extractGo]; rw [h]

/-- `titleAfter` equation for a cons. -/
theorem titleAfter_cons {ct x : String} (rest : List String) :
    titleAfter ct (x :: rest) = titleAfter (extractStep ct x).1 rest := rfl

/-- `extractGo` over a concatenation: the second half starts from the title
context accumulated over the first. -/
theorem extractGo_append (ct : String) (xs ys : List String) :
    extractGo ct (xs ++ ys) = extractGo ct xs ++ extractGo (titleAfter ct xs) ys := by
  induction xs generalizing ct with
  | nil => rfl
  | cons x rest ih =>
    rcases hx : extractStep ct x with ⟨ct2, e⟩
    cases e with
    | none =>
      rw [List.cons_append, extractGo_cons_none _ hx, ih,
        extractGo_cons_none _ hx, titleAfter_cons, hx]
    | some p =>
      rw [List.cons_append, extractGo_cons_some _ hx, ih,
        extractGo_cons_some _ hx, titleAfter_cons, hx, List.cons_append]

/-- The title context stays put over lines none of which match the title
regex. -/
theorem titleAfter_of_no_titles (ct : String) (xs : List String)
    (h : ∀ p ∈ xs, parseTitleLine (pyStrip p).data = none) :
    titleAfter ct xs = ct := by
  induction xs generalizing ct with
  | nil => rfl
  | cons x rest ih =>
    rw [titleAfter_cons, extractStep_fst_of_no_title ct x (h x (by simp))]
    exact ih ct (fun p hp => h p (by simp [hp]))

/-! ## Claim C1 -/

/-- C1: the spec's link-extraction test claims the six-line input (titles
`Case Alpha` / `Case Beta` with `FULL CASE:` / `PART n:` URL lines) yields
three labelled `(title, url)` pairs.  On the code it yields NO entries:
the label-handling branch is dead, because a line such as
`FULL CASE: http://example.com/a.pdf` fails the guard
`line.startswith('http')` (it starts with `F`) and is skipped before the
label regex is ever tried.  This theorem evaluates the embedded
`extract_pdf_urls` at exactly the spec's input. -/
theorem extract_pdf_urls_spec_input_is_empty :
    extract_pdf_urls
      ["1. Case Alpha",
       "FULL CASE: http://example.com/a.pdf",
       "2. Case Beta",
       "PART 1: http://example.com/b1.pdf",
       "PART 2: http://example.com/b2.pdf"] = [] := by
  decide

/-! ## Claim C9 -/

/-- C9: a recognized URL line (starting with the scheme `http`, containing
`.pdf` case-insensitively) that appears before any numbered title line is
emitted with the empty string as its title: `current_title` starts empty and
is only changed by title lines. -/
theorem extract_url_line_before_titles_has_empty_title
    (pre post : List String) (line : String)
    (hp : startsWithS (pyStrip line) "http" = true)
    (hpdf : containsS (lowerS (pyStrip line)) ".pdf" = true)
    (hpre : ∀ p ∈ pre, parseTitleLine (pyStrip p).data = none) :
    extract_pdf_urls (pre ++ line :: post) =
      extract_pdf_urls pre ++ ("", pyStrip line) :: extractGo "" post := by
  unfold extract_pdf_urls
  rw [extractGo_append, titleAfter_of_no_titles _ _ hpre]
  have hstep : extractStep "" line = ("", some ("", pyStrip line)) := by
    unfold extractStep
    exact extractStepCore_url "" (pyStrip line) hp hpdf
  rw [extractGo_cons_some _ hstep]

/-- C9 witness: a header banner, then a URL line before any title line. -/
theorem extract_url_line_before_titles_witness :
    extract_pdf_urls ["=== PDF LINKS ===", "  http://x.org/v1.PDF "] =
      [("", "http://x.org/v1.PDF")] := by
  have h := extract_url_line_before_titles_has_empty_title
    ["=== PDF LINKS ==="] [] "  http://x.org/v1.PDF "
    (by decide) (by decide) (by decide)
  simpa using h

/-! ## Claim C5 -/

/-- Every character produced by the whitespace collapse is an underscore or
a non-collapsed input character. -/
theorem mem_collapseWsGo {c : Char} :
    ∀ (b : Bool) (l : List Char), c ∈ collapseWsGo b l → c = '_' ∨ c ∈ l := by
  intro b l
  induction l generalizing b with
  | nil => intro h; exact absurd h (by simp [collapseWsGo])
  | cons a rest ih =>
    intro h
    unfold collapseWsGo at h
    by_cases ha : isPySpace a = true
    · rw [if_pos ha] at h
      by_cases hb : b = true
      · rw [if_pos hb] at h
        rcases ih true h with h1 | h1
        · exact Or.inl h1
        · exact Or.inr (List.mem_cons_of_mem a h1)
      · rw [if_neg hb] at h
        rcases List.mem_cons.mp h with h1 | h1
        · exact Or.inl h1
        · rcases ih true h1 with h2 | h2
          · exact Or.inl h2
          · exact Or.inr (List.mem_cons_of_mem a h2)
    · rw [if_neg ha] at h
      rcases List.mem_cons.mp h with h1 | h1
      · exact Or.inr (h1 ▸ List.mem_cons_self a rest)
      · rcases ih false h1 with h2 | h2
        · exact Or.inl h2
        · exact Or.inr (List.mem_cons_of_mem a h2)

/-- The whitespace collapse leaves no whitespace characters at all. -/
theorem collapseWsGo_no_ws {c : Char} :
    ∀ (b : Bool) (l : List Char), c ∈ collapseWsGo b l → isPySpace c = false := by
  intro b l
  induction l generalizing b with
  | nil => intro h; exact absurd h (by simp [collapseWsGo])
  | cons a rest ih =>
    intro h
    unfold collapseWsGo at h
    by_cases ha : isPySpace a = true
    · rw [if_pos ha] at h
      by_cases hb : b = true
      · rw [if_pos hb] at h
        exact ih true h
      · rw [if_neg hb] at h
        rcases List.mem_cons.mp h with h1 | h1
        · subst h1; rfl
        · exact ih true h1
    · rw [if_neg ha] at h
      rcases List.mem_cons.mp h with h1 | h1
      · subst h1; exact Bool.eq_false_iff.mpr (fun hc => ha hc)
      · exact ih false h1

/-- A list without whitespace characters has no whitespace run at all. -/
theorem hasLongWsRun_eq_false (l : List Char)
    (h : ∀ c ∈ l, isPySpace c = false) : hasLongWsRun l = false := by
  induction l with
  | nil => rfl
  | cons a rest ih =>
    cases rest with
    | nil => rfl
    | cons b r =>
      unfold hasLongWsRun
      rw [h a (by simp), ih (fun c hc => h c (List.mem_cons_of_mem a hc))]
      rfl

/-- Structural description of `sanitize_filename`: a ≤200-character stem of
safe, non-whitespace characters followed by `".pdf"`. -/
theorem sanitize_structure (t : String) :
    ∃ s3 : List Char, sanitize_filename t = ⟨s3 ++ ".pdf".data⟩ ∧
      s3.length ≤ 200 ∧
      ∀ c ∈ s3, unsafeChars.contains c = false ∧ isPySpace c = false := by
  set s1 := t.data.filter (fun c => !unsafeChars.contains c) with hs1
  set s2 := collapseWsGo false s1 with hs2
  refine ⟨if s2.length > 200 then s2.take 200 else s2, rfl, ?_, ?_⟩
  · split
    · simp
    · next hgt => omega
  · intro c hc
    have hc2 : c ∈ s2 := by
      split at hc
      · exact List.mem_of_mem_take hc
      · exact hc
    refine ⟨?_, collapseWsGo_no_ws false s1 hc2⟩
    rcases mem_collapseWsGo false s1 hc2 with h1 | h1
    · subst h1; decide
    · have := (List.mem_filter.mp (hs1 ▸ h1)).2
      exact Bool.not_eq_true' .. |>.mp this

/-- C5: for every non-empty title, `sanitize_filename` yields a name with
none of the characters `<>:"/\|?*`, no whitespace run longer than one
separator character (indeed no whitespace at all survives the collapse),
length at most 204 = 200 + `".pdf"`, and equal titles give equal names. -/
theorem sanitize_filename_claim (title : String) (h : title ≠ "") :
    (∀ c ∈ (sanitize_filename title).data, unsafeChars.contains c = false) ∧
    hasLongWsRun (sanitize_filename title).data = false ∧
    (sanitize_filename title).length ≤ 204 ∧
    (∀ t2 : String, title = t2 → sanitize_filename title = sanitize_filename t2) := by
  obtain ⟨s3, heq, hlen, hmem⟩ := sanitize_structure title
  rw [heq]
  refine ⟨?_, ?_, ?_, ?_⟩
  · intro c hc
    rcases List.mem_append.mp hc with h1 | h1
    · exact (hmem c h1).1
    · have : c ∈ ['.', 'p', 'd', 'f'] := h1
      fin_cases this <;> decide
  · apply hasLongWsRun_eq_false
    intro c hc
    rcases List.mem_append.mp hc with h1 | h1
    · exact (hmem c h1).2
    · have : c ∈ ['.', 'p', 'd', 'f'] := h1
      fin_cases this <;> decide
  · show (s3 ++ ".pdf".data).length ≤ 204
    rw [List.length_append]
    have : (".pdf".data).length = 4 := rfl
    omega
  · intro t2 ht
    rw [← heq, ht]

/-- C5 witness: a concrete messy title. -/
theorem sanitize_filename_claim_witness :
    ("Case: A/B?  C" : String) ≠ "" ∧
    ((∀ c ∈ (sanitize_filename "Case: A/B?  C").data, unsafeChars.contains c = false) ∧
     hasLongWsRun (sanitize_filename "Case: A/B?  C").data = false ∧
     (sanitize_filename "Case: A/B?  C").length ≤ 204 ∧
     (∀ t2 : String, "Case: A/B?  C" = t2 →
        sanitize_filename "Case: A/B?  C" = sanitize_filename t2)) :=
  ⟨by decide, sanitize_filename_claim "Case: A/B?  C" (by decide)⟩

/-! ## Claim C2 -/

/-- The `authors` component of the paragraph fold is determined by the LAST
`By `-matching paragraph (each match overwrites the previous value). -/
theorem paraFold_authors (ps : List String) :
    ∀ (a : List String) (d dt : String),
      (paraFold (a, d, dt) ps).1 =
        match lastByPara ps with
        | some t => splitTrimCommas (dropChars 3 t)
        | none => a := by
  induction ps with
  | nil => intro a d dt; rfl
  | cons t rest ih =>
    intro a d dt
    show (paraFold _ (t :: rest)).1 = _
    unfold paraFold lastByPara
    by_cases hby : isByPara t = true
    · rw [if_pos hby]
      rw [ih]
      cases lastByPara rest with
      | none => simp [hby]
      | some r => simp
    · rw [if_neg hby]
      by_cases hdate : isDatePara t = true
      · rw [if_pos hdate, ih]
        cases lastByPara rest with
        | none => simp [hby]
        | some r => simp
      · rw [if_neg hdate]
        split <;>
          (rw [ih]
           cases lastByPara rest with
           | none => simp [hby]
           | some r => simp)

/-- C2 counterexample: an element with two `By `-paragraphs.  The code
returns the authors of the SECOND (`By Bob`), not of the first (`By Alice`)
as the claim states. -/
theorem parse_case_element_two_by_counterexample :
    (parse_case_element ⟨"", some "T", ["By Alice", "By Bob"], none⟩).authors ≠
      authorsOfPara
        (firstByPara (Elem.mk "" (some "T") ["By Alice", "By Bob"] none).ps) := by
  decide

/-- C2 amended: the record's `authors` field is the comma-split, trimmed
content (prefix removed) of the LAST paragraph whose text starts with
`By ` — each matching paragraph overwrites the previous assignment — and is
empty when no paragraph matches. -/
theorem parse_case_element_authors_last_by (e : Elem) :
    (parse_case_element e).authors = authorsOfPara (lastByPara e.ps) := by
  show (paraFold ([], "", "") e.ps).1 = _
  rw [paraFold_authors]
  cases lastByPara e.ps <;> rfl

/-- C2 amended witness: with a single `By ` paragraph the authors are its
comma-split names. -/
theorem parse_case_element_authors_last_by_witness :
    (parse_case_element ⟨"/x", some "T",
        ["By Alice Smith, Bob Jones", "March 3, 2021"], none⟩).authors =
      authorsOfPara (lastByPara ["By Alice Smith, Bob Jones", "March 3, 2021"]) :=
  parse_case_element_authors_last_by _

/-! ## Claim C10 -/

/-- The collection invariant of `get_case_study_links` is preserved by each
loop step: accumulated URLs are pairwise distinct, differ from the base URL,
and titles are non-empty. -/
theorem scrape_foldl_inv (urljoin : String → String → String) (base : String)
    (links : List LinkA) (acc : List CSLink)
    (hacc : List.Pairwise (fun x y => x.url ≠ y.url) acc ∧
      ∀ e ∈ acc, e.url ≠ base ∧ e.title ≠ "") :
    List.Pairwise (fun x y => x.url ≠ y.url)
        (links.foldl (scrapeStep urljoin base) acc) ∧
      ∀ e ∈ links.foldl (scrapeStep urljoin base) acc,
        e.url ≠ base ∧ e.title ≠ "" := by
  induction links generalizing acc with
  | nil => simpa using hacc
  | cons l rest ih =>
    rw [List.foldl_cons]
    apply ih
    by_cases hA : (containsS l.href "teaching-resources-library" &&
        containsS (lowerS l.href) "case") = true
    · by_cases hB : (decide (urljoin base l.href ≠ base) &&
          !(acc.map (fun i => i.url)).contains (urljoin base l.href)) = true
      · have hne : urljoin base l.href ≠ base :=
          of_decide_eq_true ((Bool.and_eq_true _ _).mp hB).1
        have hcf : ((acc.map (fun i => i.url)).contains
            (urljoin base l.href)) = false := by
          have h2 := ((Bool.and_eq_true _ _).mp hB).2
          cases hcc : (acc.map (fun i => i.url)).contains (urljoin base l.href)
          · rfl
          · rw [hcc] at h2; exact absurd h2 (by decide)
        have hnotmem : urljoin base l.href ∉ acc.map (fun i => i.url) := by
          intro hm
          have hel : List.elem (urljoin base l.href)
              (acc.map (fun i => i.url)) = false := hcf
          rw [(List.elem_iff).mpr hm] at hel
          exact absurd hel (by decide)
        by_cases hC : l.txt ≠ ""
        · have hstep : scrapeStep urljoin base acc l =
              acc ++ [⟨l.txt, urljoin base l.href⟩] := by
            simp only [scrapeStep, hA, hB, reduceIte]
            rw [if_pos hC]
          rw [hstep]
          constructor
          · rw [List.pairwise_append]
            refine ⟨hacc.1, by simp, ?_⟩
            intro a ha b hb
            have hb2 : b = ⟨l.txt, urljoin base l.href⟩ := by simpa using hb
            subst hb2
            intro he
            exact hnotmem (List.mem_map.mpr ⟨a, ha, he⟩)
          · intro e he
            rcases List.mem_append.mp he with h1 | h1
            · exact hacc.2 e h1
            · have he2 : e = ⟨l.txt, urljoin base l.href⟩ := by simpa using h1
              subst he2
              exact ⟨hne, hC⟩
        · have hstep : scrapeStep urljoin base acc l = acc := by
            simp only [scrapeStep, hA, hB, reduceIte]
            rw [if_neg hC]
          rw [hstep]; exact hacc
      · have hBf : (decide (urljoin base l.href ≠ base) &&
            !(acc.map (fun i => i.url)).contains (urljoin base l.href)) = false := by
          cases hb2 : (decide (urljoin base l.href ≠ base) &&
              !(acc.map (fun i => i.url)).contains (urljoin base l.href))
          · rfl
          · exact absurd hb2 hB
        have hstep : scrapeStep urljoin base acc l = acc := by
          simp only [scrapeStep, hA, hBf, reduceIte]
          rfl
        rw [hstep]; exact hacc
    · have hAf : (containsS l.href "teaching-resources-library" &&
          containsS (lowerS l.href) "case") = false := by
        cases ha2 : (containsS l.href "teaching-resources-library" &&
            containsS (lowerS l.href) "case")
        · rfl
        · exact absurd ha2 hA
      have hstep : scrapeStep urljoin base acc l = acc := by
        simp only [scrapeStep, hAf, reduceIte]
        rfl
      rw [hstep]; exact hacc

/-- C10: every list returned by `get_case_study_links` has pairwise-distinct
URLs, each differing from the base URL, with non-empty titles; and a request
failure yields the empty list. -/
theorem get_case_study_links_invariants (urljoin : String → String → String)
    (base : String) (fetched : Option (List LinkA)) :
    (List.Pairwise (fun x y => x.url ≠ y.url)
        (get_case_study_links urljoin base fetched) ∧
      ∀ e ∈ get_case_study_links urljoin base fetched,
        e.url ≠ base ∧ e.title ≠ "") ∧
    get_case_study_links urljoin base none = [] := by
  refine ⟨?_, rfl⟩
  cases fetched with
  | none => simp [get_case_study_links]
  | some links =>
    exact scrape_foldl_inv urljoin base links [] ⟨List.Pairwise.nil, by simp⟩

/-- C10 witness: a concrete page with a duplicate href and an empty-titled
anchor. -/
theorem get_case_study_links_invariants_witness :
    (List.Pairwise (fun x y => x.url ≠ y.url)
        (get_case_study_links (fun b h => b ++ h) "B"
          (some [⟨"teaching-resources-library/case-a", "T1"⟩,
                 ⟨"teaching-resources-library/case-a", "T2"⟩,
                 ⟨"teaching-resources-library/case-b", ""⟩])) ∧
      ∀ e ∈ get_case_study_links (fun b h => b ++ h) "B"
          (some [⟨"teaching-resources-library/case-a", "T1"⟩,
                 ⟨"teaching-resources-library/case-a", "T2"⟩,
                 ⟨"teaching-resources-library/case-b", ""⟩]),
        e.url ≠ "B" ∧ e.title ≠ "") ∧
    get_case_study_links (fun b h => b ++ h) "B" none = [] :=
  get_case_study_links_invariants (fun b h => b ++ h) "B"
    (some [⟨"teaching-resources-library/case-a", "T1"⟩,
           ⟨"teaching-resources-library/case-a", "T2"⟩,
           ⟨"teaching-resources-library/case-b", ""⟩])

/-! ## Claim C4 -/

/-- Looking up the just-inserted key of a Python-dict insertion returns the
inserted value. -/
theorem lookup_dictInsert_self (k : String) (v : TrackRecord)
    (l : List (String × TrackRecord)) : (dictInsert k v l).lookup k = some v := by
  induction l with
  | nil => simp [dictInsert]
  | cons p rest ih =>
    obtain ⟨k2, v2⟩ := p
    unfold dictInsert
    by_cases h : k2 = k
    · rw [if_pos h]; simp
    · rw [if_neg h]
      have hne : (k == k2) = false := beq_eq_false_iff_ne.mpr (fun he => h he.symm)
      simpa [List.lookup, hne] using ih

/-- `List.getD` returns a list element or the default. -/
theorem getD_mem_or {α : Type} (l : List α) (n : Nat) (d : α) :
    l.getD n d ∈ l ∨ l.getD n d = d := by
  induction l generalizing n with
  | nil => right; rfl
  | cons a rest ih =>
    cases n with
    | zero => left; simp
    | succ m =>
      rcases ih m with h | h
      · left; simp only [List.getD_cons_succ]; exact List.mem_cons_of_mem a h
      · right; simpa using h

/-- Every output of `hexDigit` is a lowercase hexadecimal digit. -/
theorem hexDigit_mem (n : Nat) : hexDigit n ∈ hexDigits := by
  unfold hexDigit
  rcases getD_mem_or hexDigits (n % 16) '0' with h | h
  · exact h
  · rw [h]; decide

/-- C4: marking a URL downloaded, saving, and reloading in a fresh tracker
reports it downloaded; and its ledger key is the deterministic 16-character
lowercase-hex truncation of the SHA-256 of the URL alone (the title is not
an input of `get_url_hash`). -/
theorem tracker_roundtrip_and_hash (d : TrackingData)
    (url filename title now : String) :
    is_downloaded (load_tracking_data (save_tracking_data
        (mark_downloaded d url filename title now))) url = true ∧
    (get_url_hash url).length = 16 ∧
    (∀ c ∈ (get_url_hash url).data, c ∈ hexDigits) := by
  refine ⟨?_, rfl, ?_⟩
  · show ((dictInsert (get_url_hash url) ⟨url, filename, title, now⟩
      d.downloads).lookup (get_url_hash url)).isSome = true
    rw [lookup_dictInsert_self]
    rfl
  · intro c hc
    have hc2 : c ∈ sha256HexChars (utf8Bytes url) :=
      List.mem_of_mem_take (show c ∈ (sha256HexChars (utf8Bytes url)).take 16 from hc)
    unfold sha256HexChars at hc2
    rcases List.mem_flatten.mp hc2 with ⟨sub, hsub, hcsub⟩
    rcases List.mem_map.mp hsub with ⟨b, hb, rfl⟩
    rcases (show c = hexDigit (b / 16) ∨ c = hexDigit b by
      simpa [byteToHex] using hcsub) with h | h <;>
      (rw [h]; exact hexDigit_mem _)

/-- C4 witness: a concrete URL round-trips through save and reload. -/
theorem tracker_roundtrip_and_hash_witness :
    is_downloaded (load_tracking_data (save_tracking_data
        (mark_downloaded ⟨[]⟩ "http://example.com/a.pdf" "a.pdf" "Case A"
          "2024-01-01 00:00:00"))) "http://example.com/a.pdf" = true ∧
    (get_url_hash "http://example.com/a.pdf").length = 16 :=
  ⟨(tracker_roundtrip_and_hash ⟨[]⟩ "http://example.com/a.pdf" "a.pdf" "Case A"
      "2024-01-01 00:00:00").1,
   (tracker_roundtrip_and_hash ⟨[]⟩ "http://example.com/a.pdf" "a.pdf" "Case A"
      "2024-01-01 00:00:00").2.1⟩

/-! ## Downloader lemmas -/

/-- Removing a path erases an immediately preceding write to it. -/
theorem removeFile_setFile (p : String) (c : List Nat) (fs : FS) :
    removeFile p (setFile p c fs) = removeFile p fs := by
  induction fs with
  | nil => simp [setFile, removeFile]
  | cons qd rest ih =>
    obtain ⟨q, d⟩ := qd
    by_cases h : q = p
    · subst h
      simp [setFile, removeFile]
    · simp [setFile, removeFile, h, ih]

/-- After `removeFile` the path is absent. -/
theorem lookupFile_removeFile (p : String) (fs : FS) :
    lookupFile (removeFile p fs) p = none := by
  induction fs with
  | nil => rfl
  | cons qd rest ih =>
    obtain ⟨q, d⟩ := qd
    by_cases h : q = p
    · simpa [removeFile, h] using ih
    · have hpq : (p == q) = false := beq_eq_false_iff_ne.mpr (fun he => h he.symm)
      simpa [removeFile, h, lookupFile, List.lookup, hpq] using ih

/-- Removing an absent path is a no-op. -/
theorem removeFile_of_lookup_none (p : String) (fs : FS)
    (h : lookupFile fs p = none) : removeFile p fs = fs := by
  induction fs with
  | nil => rfl
  | cons qd rest ih =>
    obtain ⟨q, d⟩ := qd
    have hpq : (p == q) = false := by
      cases hb : (p == q)
      · rfl
      · have h2 : lookupFile ((q, d) :: rest) p = some d := by
          simp [lookupFile, List.lookup, hb]
        rw [h] at h2
        exact Option.noConfusion h2
    have hq : q ≠ p := fun he => by simp [he] at hpq
    have hrest : lookupFile rest p = none := by
      simpa [lookupFile, List.lookup, hpq] using h
    simp [removeFile, hq, ih hrest]

/-- The success flag of the retry loop equals the transport-level success
predicate: it does not depend on the path or the directory contents. -/
theorem downloadLoop_fst_eq_anySuccess (oracle : Nat → AttemptResult)
    (path : String) :
    ∀ (rem a : Nat) (fs : FS),
      (downloadLoop oracle path fs a rem).1 = anySuccess oracle a rem := by
  intro rem
  induction rem with
  | zero => intro a fs; rfl
  | succ r ih =>
    intro a fs
    unfold downloadLoop anySuccess
    cases ho : oracle a with
    | success c => rfl
    | failure w =>
      cases r with
      | zero => rfl
      | succ r2 =>
        show (downloadLoop oracle path _ (a + 1) (r2 + 1)).1 = _
        rw [ih (a + 1)]
        rfl

/-- When every attempt fails with a transport error, the retry loop makes
exactly `rem` attempts, reports failure, and leaves the directory as it was
except that the target path has been deleted. -/
theorem downloadLoop_all_fail (oracle : Nat → AttemptResult) (path : String)
    (w : Nat → Option (List Nat)) :
    ∀ (rem a : Nat) (fs : FS), 0 < rem →
      (∀ i, a ≤ i → i < a + rem → oracle i = .failure (w i)) →
      downloadLoop oracle path fs a rem = (false, removeFile path fs, rem) := by
  intro rem
  induction rem with
  | zero => intro a fs h; omega
  | succ r ih =>
    intro a fs _ hfail
    unfold downloadLoop
    rw [hfail a (Nat.le_refl a) (by omega)]
    cases r with
    | zero =>
      cases w a with
      | none => rfl
      | some pc => show (false, removeFile path (setFile path pc fs), 1) = _
                   rw [removeFile_setFile]
    | succ r2 =>
      have hrec := ih (a + 1) (match w a with
          | none => fs
          | some pc => setFile path pc fs) (Nat.succ_pos r2)
        (fun i hi1 hi2 => hfail i (by omega) (by omega))
      show ((downloadLoop oracle path _ (a + 1) (r2 + 1)).1,
        (downloadLoop oracle path _ (a + 1) (r2 + 1)).2.1,
        (downloadLoop oracle path _ (a + 1) (r2 + 1)).2.2 + 1) = _
      rw [hrec]
      cases hwa : w a with
      | none => simp [hwa]
      | some pc => simp [hwa, removeFile_setFile]

/-- `processEntry` equation: a tracked URL is skipped with nothing touched. -/
theorem processEntry_skip_ledger (oracle : String → Nat → AttemptResult)
    (now : String) (st : DState) (e : String × String)
    (h : is_downloaded st.data e.2 = true) :
    processEntry oracle now st e = (st, .skipped) := by
  simp only [processEntry, h, reduceIte]

/-- `processEntry` equation: an untracked URL whose derived path already
exists is adopted into the ledger and skipped. -/
theorem processEntry_adopt (oracle : String → Nat → AttemptResult)
    (now : String) (st : DState) (e : String × String)
    (h1 : is_downloaded st.data e.2 = false)
    (h2 : (lookupFile st.fs (outPath (sanitize_filename e.1))).isSome = true) :
    processEntry oracle now st e =
      ({ st with
          data := mark_downloaded st.data e.2 (sanitize_filename e.1) e.1 now,
          disk := save_tracking_data
            (mark_downloaded st.data e.2 (sanitize_filename e.1) e.1 now) },
        .skipped) := by
  simp only [processEntry, h1, h2, reduceIte]
  rfl

/-- `processEntry` equation: with both skip checks failed, a download is
attempted and the outcome follows the transport result. -/
theorem processEntry_download (oracle : String → Nat → AttemptResult)
    (now : String) (st : DState) (e : String × String)
    (h1 : is_downloaded st.data e.2 = false)
    (h2 : (lookupFile st.fs (outPath (sanitize_filename e.1))).isSome = false) :
    processEntry oracle now st e =
      (if (download_file (oracle e.2) (outPath (sanitize_filename e.1))
          st.fs MAX_RETRIES).1 then
        ({ data := mark_downloaded st.data e.2 (sanitize_filename e.1) e.1 now,
           disk := save_tracking_data
             (mark_downloaded st.data e.2 (sanitize_filename e.1) e.1 now),
           fs := (download_file (oracle e.2) (outPath (sanitize_filename e.1))
             st.fs MAX_RETRIES).2.1 }, .downloaded)
      else
        ({ st with fs := (download_file (oracle e.2) (outPath (sanitize_filename e.1))
            st.fs MAX_RETRIES).2.1 }, .failed)) := by
  simp only [processEntry, h1, h2, reduceIte]
  rfl

/-- `runEntries` equation for a cons with known per-entry result. -/
theorem runEntries_cons_of (oracle : String → Nat → AttemptResult) (now : String)
    (st st2 : DState) (e : String × String) (o : Outcome)
    (rest : List (String × String))
    (h : processEntry oracle now st e = (st2, o)) :
    runEntries oracle now st (e :: rest) =
      ((runEntries oracle now st2 rest).1,
       (runEntries oracle now st2 rest).2.1 +
         (if o = .downloaded then 1 else 0),
       (runEntries oracle now st2 rest).2.2.1 +
         (if o = .skipped then 1 else 0),
       (runEntries oracle now st2 rest).2.2.2 +
         (if o = .failed then 1 else 0)) := by
  show (match (processEntry oracle now st e).2 with
    | Outcome.downloaded => _
    | Outcome.skipped => _
    | Outcome.failed => _) = _
  rw [h]
  cases o <;> simp

/-! ## Claim C3 -/

/-- C3: an untracked entry with no pre-existing file whose URL fails with a
transport error on every attempt makes exactly `MAX_RETRIES = 3` request
attempts, returns failure, leaves the tracker data and disk ledger untouched
(no entry written), leaves no file at the destination path (the partial file
is deleted), and is counted as failed in the batch summary. -/
theorem download_retry_exhaustion (oracle : String → Nat → AttemptResult)
    (now : String) (st : DState) (title url : String)
    (w : Nat → Option (List Nat))
    (hled : is_downloaded st.data url = false)
    (hfile : lookupFile st.fs (outPath (sanitize_filename title)) = none)
    (hfail : ∀ i, i < MAX_RETRIES → oracle url i = .failure (w i)) :
    (download_file (oracle url) (outPath (sanitize_filename title))
        st.fs MAX_RETRIES).2.2 = MAX_RETRIES ∧
    (download_file (oracle url) (outPath (sanitize_filename title))
        st.fs MAX_RETRIES).1 = false ∧
    processEntry oracle now st (title, url) = (st, .failed) ∧
    lookupFile (processEntry oracle now st (title, url)).1.fs
        (outPath (sanitize_filename title)) = none ∧
    runEntries oracle now st [(title, url)] = (st, 0, 0, 1) := by
  have hdl : download_file (oracle url) (outPath (sanitize_filename title))
      st.fs MAX_RETRIES = (false, st.fs, MAX_RETRIES) := by
    unfold download_file
    rw [downloadLoop_all_fail (oracle url) _ w MAX_RETRIES 0 st.fs
      (by decide) (fun i hi1 hi2 => hfail i (by omega))]
    rw [removeFile_of_lookup_none _ _ hfile]
  have hpe : processEntry oracle now st (title, url) = (st, .failed) := by
    rw [processEntry_download oracle now st (title, url) hled
      (by rw [hfile]; rfl), hdl]
    rfl
  refine ⟨by rw [hdl], by rw [hdl], hpe, by rw [hpe]; exact hfile, ?_⟩
  rw [runEntries_cons_of oracle now st st (title, url) .failed [] hpe]
  rfl

/-- C3 witness: a concrete always-failing URL on an empty state. -/
theorem download_retry_exhaustion_witness :
    (is_downloaded (⟨⟨[]⟩, none, []⟩ : DState).data "http://x.org/a.pdf" = false ∧
     lookupFile (⟨⟨[]⟩, none, []⟩ : DState).fs
       (outPath (sanitize_filename "T")) = none ∧
     ∀ i, i < MAX_RETRIES →
       (fun (_ : String) (_ : Nat) => AttemptResult.failure none) "http://x.org/a.pdf" i =
         .failure ((fun _ => none) i)) ∧
    processEntry (fun _ _ => .failure none) "now" ⟨⟨[]⟩, none, []⟩
        ("T", "http://x.org/a.pdf") = (⟨⟨[]⟩, none, []⟩, .failed) ∧
    runEntries (fun _ _ => .failure none) "now" ⟨⟨[]⟩, none, []⟩
        [("T", "http://x.org/a.pdf")] = (⟨⟨[]⟩, none, []⟩, 0, 0, 1) :=
  ⟨⟨rfl, rfl, fun _ _ => rfl⟩,
   (download_retry_exhaustion (fun _ _ => .failure none) "now" ⟨⟨[]⟩, none, []⟩
      "T" "http://x.org/a.pdf" (fun _ => none) rfl rfl (fun _ _ => rfl)).2.2.1,
   (download_retry_exhaustion (fun _ _ => .failure none) "now" ⟨⟨[]⟩, none, []⟩
      "T" "http://x.org/a.pdf" (fun _ => none) rfl rfl (fun _ _ => rfl)).2.2.2.2⟩

/-! ## Claim C6 -/

/-- C6: the skip checks of the main loop apply in order.  (1) A URL whose
ledger key is present is skipped with the whole state (tracker data, disk
ledger, download directory) unchanged; (2) otherwise a pre-existing file at
the derived path is adopted: a ledger entry for the URL is written and the
fetch is skipped, the directory unchanged; (3) only when both checks fail is
a download attempted, its outcome decided by the transport oracle. -/
theorem skip_policy_order (oracle : String → Nat → AttemptResult) (now : String)
    (st : DState) (title url : String) :
    (is_downloaded st.data url = true →
      processEntry oracle now st (title, url) = (st, .skipped)) ∧
    (is_downloaded st.data url = false →
      (lookupFile st.fs (outPath (sanitize_filename title))).isSome = true →
      processEntry oracle now st (title, url) =
        ({ st with
            data := mark_downloaded st.data url (sanitize_filename title) title now,
            disk := save_tracking_data
              (mark_downloaded st.data url (sanitize_filename title) title now) },
          .skipped)) ∧
    (is_downloaded st.data url = false →
      (lookupFile st.fs (outPath (sanitize_filename title))).isSome = false →
      ((anySuccess (oracle url) 0 MAX_RETRIES = true →
          (processEntry oracle now st (title, url)).2 = .downloaded) ∧
        (anySuccess (oracle url) 0 MAX_RETRIES = false →
          (processEntry oracle now st (title, url)).2 = .failed))) := by
  refine ⟨fun h => processEntry_skip_ledger oracle now st (title, url) h,
    fun h1 h2 => processEntry_adopt oracle now st (title, url) h1 h2,
    fun h1 h2 => ?_⟩
  rw [processEntry_download oracle now st (title, url) h1 h2]
  have hfst : (download_file (oracle url) (outPath (sanitize_filename title))
      st.fs MAX_RETRIES).1 = anySuccess (oracle url) 0 MAX_RETRIES :=
    downloadLoop_fst_eq_anySuccess (oracle url) _ MAX_RETRIES 0 st.fs
  constructor
  · intro hs
    rw [hfst, hs]
    rfl
  · intro hs
    rw [hfst, hs]
    rfl

/-- C6 witness: the adoption case on a concrete state (empty ledger, file
already present), and the download case on an empty directory with an
always-failing transport. -/
theorem skip_policy_order_witness :
    (is_downloaded (⟨⟨[]⟩, none, [("downloaded_pdfs/T.pdf", [1])]⟩ : DState).data
        "http://x.org/a.pdf" = false ∧
     (lookupFile (⟨⟨[]⟩, none, [("downloaded_pdfs/T.pdf", [1])]⟩ : DState).fs
        (outPath (sanitize_filename "T"))).isSome = true ∧
     processEntry (fun _ _ => .failure none) "now"
        ⟨⟨[]⟩, none, [("downloaded_pdfs/T.pdf", [1])]⟩ ("T", "http://x.org/a.pdf") =
        ({ data := mark_downloaded ⟨[]⟩ "http://x.org/a.pdf"
              (sanitize_filename "T") "T" "now",
           disk := save_tracking_data (mark_downloaded ⟨[]⟩ "http://x.org/a.pdf"
              (sanitize_filename "T") "T" "now"),
           fs := [("downloaded_pdfs/T.pdf", [1])] }, .skipped)) ∧
    (anySuccess ((fun (_ : String) (_ : Nat) => AttemptResult.failure none)
        "http://x.org/a.pdf") 0 MAX_RETRIES = false ∧
     (processEntry (fun _ _ => .failure none) "now" ⟨⟨[]⟩, none, []⟩
        ("T", "http://x.org/a.pdf")).2 = .failed) :=
  ⟨⟨rfl, rfl, by
      have h := (skip_policy_order (fun _ _ => .failure none) "now"
        ⟨⟨[]⟩, none, [("downloaded_pdfs/T.pdf", [1])]⟩ "T" "http://x.org/a.pdf").2.1
        rfl rfl
      exact h⟩,
   ⟨rfl, ((skip_policy_order (fun _ _ => .failure none) "now" ⟨⟨[]⟩, none, []⟩
      "T" "http://x.org/a.pdf").2.2 rfl rfl).2 rfl⟩⟩

/-! ## Claim C7 -/

/-- A Python-dict insertion preserves the presence of every key. -/
theorem lookup_dictInsert_isSome_mono (k k2 : String) (v : TrackRecord)
    (l : List (String × TrackRecord))
    (h : (l.lookup k).isSome = true) :
    ((dictInsert k2 v l).lookup k).isSome = true := by
  induction l with
  | nil => exact absurd h (by simp)
  | cons qd rest ih =>
    obtain ⟨q, d⟩ := qd
    by_cases hq : q = k2
    · subst hq
      cases hkq : (k == q)
      · have hrest : (rest.lookup k).isSome = true := by
          simpa [List.lookup, hkq] using h
        simpa [dictInsert, List.lookup, hkq] using hrest
      · simp [dictInsert, List.lookup, hkq]
    · cases hkq : (k == q)
      · have hrest : (rest.lookup k).isSome = true := by
          simpa [List.lookup, hkq] using h
        simpa [dictInsert, hq, List.lookup, hkq] using ih hrest
      · simp [dictInsert, hq, List.lookup, hkq]

/-- One main-loop step never deletes a ledger key. -/
theorem processEntry_ledger_mono (oracle : String → Nat → AttemptResult)
    (now : String) (st : DState) (e : String × String) (k : String)
    (h : ((st.data.downloads).lookup k).isSome = true) :
    (((processEntry oracle now st e).1.data.downloads).lookup k).isSome = true := by
  by_cases h1 : is_downloaded st.data e.2 = true
  · rw [processEntry_skip_ledger oracle now st e h1]
    exact h
  · have h1f : is_downloaded st.data e.2 = false := by simpa using h1
    by_cases h2 : (lookupFile st.fs (outPath (sanitize_filename e.1))).isSome = true
    · rw [processEntry_adopt oracle now st e h1f h2]
      exact lookup_dictInsert_isSome_mono k _ _ _ h
    · have h2f : (lookupFile st.fs (outPath (sanitize_filename e.1))).isSome = false := by
        simpa using h2
      rw [processEntry_download oracle now st e h1f h2f]
      cases hdl : (download_file (oracle e.2) (outPath (sanitize_filename e.1))
          st.fs MAX_RETRIES).1
      · simp only [hdl, Bool.false_eq_true, if_false]
        exact h
      · simp only [hdl, if_true]
        exact lookup_dictInsert_isSome_mono k _ _ _ h

/-- The batch loop never deletes a ledger key. -/
theorem runEntries_ledger_mono (oracle : String → Nat → AttemptResult)
    (now : String) :
    ∀ (es : List (String × String)) (st : DState) (k : String),
      ((st.data.downloads).lookup k).isSome = true →
      (((runEntries oracle now st es).1.data.downloads).lookup k).isSome = true := by
  intro es
  induction es with
  | nil => intro st k h; exact h
  | cons e rest ih =>
    intro st k h
    rcases hpe : processEntry oracle now st e with ⟨st2, o⟩
    rw [runEntries_cons_of oracle now st st2 e o rest hpe]
    have hmono := processEntry_ledger_mono oracle now st e k h
    rw [hpe] at hmono
    exact ih st2 k hmono

/-- An entry that does not fail ends with its URL key in the ledger. -/
theorem processEntry_marks (oracle : String → Nat → AttemptResult)
    (now : String) (st st2 : DState) (e : String × String) (o : Outcome)
    (hpe : processEntry oracle now st e = (st2, o)) (ho : o ≠ .failed) :
    ((st2.data.downloads).lookup (get_url_hash e.2)).isSome = true := by
  by_cases h1 : is_downloaded st.data e.2 = true
  · rw [processEntry_skip_ledger oracle now st e h1] at hpe
    injection hpe with ha hb
    subst ha
    exact h1
  · have h1f : is_downloaded st.data e.2 = false := by simpa using h1
    by_cases h2 : (lookupFile st.fs (outPath (sanitize_filename e.1))).isSome = true
    · rw [processEntry_adopt oracle now st e h1f h2] at hpe
      injection hpe with ha hb
      subst ha
      show ((dictInsert (get_url_hash e.2) _ _).lookup (get_url_hash e.2)).isSome = true
      rw [lookup_dictInsert_self]
      rfl
    · have h2f : (lookupFile st.fs (outPath (sanitize_filename e.1))).isSome = false := by
        simpa using h2
      rw [processEntry_download oracle now st e h1f h2f] at hpe
      cases hdl : (download_file (oracle e.2) (outPath (sanitize_filename e.1))
          st.fs MAX_RETRIES).1
      · rw [hdl] at hpe
        simp only [Bool.false_eq_true, if_false] at hpe
        injection hpe with ha hb
        exact absurd hb.symm ho
      · rw [hdl] at hpe
        simp only [if_true] at hpe
        injection hpe with ha hb
        subst ha
        show ((dictInsert (get_url_hash e.2) _ _).lookup (get_url_hash e.2)).isSome = true
        rw [lookup_dictInsert_self]
        rfl

/-- A failed entry means the transport oracle never succeeded within the
retry bound. -/
theorem processEntry_failed_noSuccess (oracle : String → Nat → AttemptResult)
    (now : String) (st st2 : DState) (e : String × String)
    (hpe : processEntry oracle now st e = (st2, .failed)) :
    anySuccess (oracle e.2) 0 MAX_RETRIES = false := by
  by_cases h1 : is_downloaded st.data e.2 = true
  · rw [processEntry_skip_ledger oracle now st e h1] at hpe
    injection hpe with ha hb
    exact Outcome.noConfusion hb
  · have h1f : is_downloaded st.data e.2 = false := by simpa using h1
    by_cases h2 : (lookupFile st.fs (outPath (sanitize_filename e.1))).isSome = true
    · rw [processEntry_adopt oracle now st e h1f h2] at hpe
      injection hpe with ha hb
      exact Outcome.noConfusion hb
    · have h2f : (lookupFile st.fs (outPath (sanitize_filename e.1))).isSome = false := by
        simpa using h2
      rw [processEntry_download oracle now st e h1f h2f] at hpe
      have hfst : (download_file (oracle e.2) (outPath (sanitize_filename e.1))
          st.fs MAX_RETRIES).1 = anySuccess (oracle e.2) 0 MAX_RETRIES :=
        downloadLoop_fst_eq_anySuccess (oracle e.2) _ MAX_RETRIES 0 st.fs
      cases hs : anySuccess (oracle e.2) 0 MAX_RETRIES
      · rfl
      · rw [hfst, hs] at hpe
        simp only [if_true] at hpe
        injection hpe with ha hb
        exact Outcome.noConfusion hb

/-- If every entry is either already in the ledger or transport-doomed, a
batch run downloads nothing. -/
theorem runEntries_no_downloads (oracle : String → Nat → AttemptResult)
    (now : String) :
    ∀ (es : List (String × String)) (st : DState),
      (∀ e ∈ es, ((st.data.downloads).lookup (get_url_hash e.2)).isSome = true ∨
        anySuccess (oracle e.2) 0 MAX_RETRIES = false) →
      (runEntries oracle now st es).2.1 = 0 := by
  intro es
  induction es with
  | nil => intro st _; rfl
  | cons e rest ih =>
    intro st h
    rcases hpe : processEntry oracle now st e with ⟨st2, o⟩
    rw [runEntries_cons_of oracle now st st2 e o rest hpe]
    have hrest : ∀ e2 ∈ rest,
        ((st2.data.downloads).lookup (get_url_hash e2.2)).isSome = true ∨
          anySuccess (oracle e2.2) 0 MAX_RETRIES = false := by
      intro e2 he2
      rcases h e2 (List.mem_cons_of_mem e he2) with hs | hn
      · left
        have hmono := processEntry_ledger_mono oracle now st e _ hs
        rw [hpe] at hmono
        exact hmono
      · right; exact hn
    have hd0 : (runEntries oracle now st2 rest).2.1 = 0 := ih st2 hrest
    have ho : o ≠ .downloaded := by
      intro hod
      subst hod
      rcases h e (List.mem_cons_self e rest) with hs | hn
      · rw [processEntry_skip_ledger oracle now st e hs] at hpe
        injection hpe with ha hb
        exact Outcome.noConfusion hb
      · by_cases h1 : is_downloaded st.data e.2 = true
        · rw [processEntry_skip_ledger oracle now st e h1] at hpe
          injection hpe with ha hb
          exact Outcome.noConfusion hb
        · have h1f : is_downloaded st.data e.2 = false := by simpa using h1
          by_cases h2 : (lookupFile st.fs
              (outPath (sanitize_filename e.1))).isSome = true
          · rw [processEntry_adopt oracle now st e h1f h2] at hpe
            injection hpe with ha hb
            exact Outcome.noConfusion hb
          · have h2f : (lookupFile st.fs
                (outPath (sanitize_filename e.1))).isSome = false := by
              simpa using h2
            rw [processEntry_download oracle now st e h1f h2f] at hpe
            have hfst : (download_file (oracle e.2)
                (outPath (sanitize_filename e.1)) st.fs MAX_RETRIES).1 =
                anySuccess (oracle e.2) 0 MAX_RETRIES :=
              downloadLoop_fst_eq_anySuccess (oracle e.2) _ MAX_RETRIES 0 st.fs
            rw [hfst, hn] at hpe
            simp only [Bool.false_eq_true, if_false] at hpe
            injection hpe with ha hb
            exact Outcome.noConfusion hb
    show (runEntries oracle now st2 rest).2.1 +
      (if o = .downloaded then 1 else 0) = 0
    rw [hd0, if_neg ho]

/-- Every entry of a batch ends either ledger-tracked or transport-doomed. -/
theorem runEntries_coverage (oracle : String → Nat → AttemptResult)
    (now : String) :
    ∀ (es : List (String × String)) (st : DState), ∀ e ∈ es,
      (((runEntries oracle now st es).1.data.downloads).lookup
        (get_url_hash e.2)).isSome = true ∨
      anySuccess (oracle e.2) 0 MAX_RETRIES = false := by
  intro es
  induction es with
  | nil => intro st e he; exact absurd he (List.not_mem_nil e)
  | cons e2 rest ih =>
    intro st e he
    rcases hpe : processEntry oracle now st e2 with ⟨st2, o⟩
    have hstate : (runEntries oracle now st (e2 :: rest)).1 =
        (runEntries oracle now st2 rest).1 := by
      rw [runEntries_cons_of oracle now st st2 e2 o rest hpe]
    rcases List.mem_cons.mp he with rfl | hmem
    · cases o with
      | failed =>
        right
        exact processEntry_failed_noSuccess oracle now st st2 e hpe
      | downloaded =>
        left
        rw [hstate]
        exact runEntries_ledger_mono oracle now rest st2 _
          (processEntry_marks oracle now st st2 e _ hpe
            (fun hx => Outcome.noConfusion hx))
      | skipped =>
        left
        rw [hstate]
        exact runEntries_ledger_mono oracle now rest st2 _
          (processEntry_marks oracle now st st2 e _ hpe
            (fun hx => Outcome.noConfusion hx))
    · rcases ih st2 e hmem with hs | hn
      · left
        rw [hstate]
        exact hs
      · right; exact hn

/-- With no failures in a batch, every entry ends ledger-tracked. -/
theorem runEntries_marked_of_no_failed (oracle : String → Nat → AttemptResult)
    (now : String) :
    ∀ (es : List (String × String)) (st : DState),
      (runEntries oracle now st es).2.2.2 = 0 →
      ∀ e ∈ es, (((runEntries oracle now st es).1.data.downloads).lookup
        (get_url_hash e.2)).isSome = true := by
  intro es
  induction es with
  | nil => intro st _ e he; exact absurd he (List.not_mem_nil e)
  | cons e2 rest ih =>
    intro st h e he
    rcases hpe : processEntry oracle now st e2 with ⟨st2, o⟩
    have hcons := runEntries_cons_of oracle now st st2 e2 o rest hpe
    rw [hcons] at h
    have h' : (runEntries oracle now st2 rest).2.2.2 +
        (if o = .failed then 1 else 0) = 0 := h
    have hof : o ≠ .failed := by
      intro hx
      rw [if_pos hx] at h'
      omega
    have hrest0 : (runEntries oracle now st2 rest).2.2.2 = 0 := by
      rw [if_neg hof] at h'
      omega
    have hstate : (runEntries oracle now st (e2 :: rest)).1 =
        (runEntries oracle now st2 rest).1 := by rw [hcons]
    rcases List.mem_cons.mp he with rfl | hmem
    · rw [hstate]
      exact runEntries_ledger_mono oracle now rest st2 _
        (processEntry_marks oracle now st st2 e _ hpe hof)
    · rw [hstate]
      exact ih st2 hrest0 e hmem

/-- A batch whose every entry is ledger-tracked changes nothing and skips
everything. -/
theorem runEntries_all_skip (oracle : String → Nat → AttemptResult)
    (now : String) :
    ∀ (es : List (String × String)) (st : DState),
      (∀ e ∈ es, ((st.data.downloads).lookup (get_url_hash e.2)).isSome = true) →
      runEntries oracle now st es = (st, 0, es.length, 0) := by
  intro es
  induction es with
  | nil => intro st _; rfl
  | cons e rest ih =>
    intro st h
    have hpe := processEntry_skip_ledger oracle now st e
      (h e (List.mem_cons_self e rest))
    rw [runEntries_cons_of oracle now st st e .skipped rest hpe,
      ih st (fun e2 he2 => h e2 (List.mem_cons_of_mem e he2))]
    simp

/-- C7 counterexample: one entry whose URL always fails.  Both runs fail the
entry again, so the second run has zero skipped entries — "every entry
skipped" is false (though zero new downloads still holds). -/
theorem run_twice_not_all_skipped :
    (runEntries (fun _ _ => .failure none) "now"
        (runEntries (fun _ _ => .failure none) "now"
          (⟨⟨[]⟩, none, []⟩ : DState) [("T", "http://x.org/a.pdf")]).1
        [("T", "http://x.org/a.pdf")]).2.2.1 ≠
      [("T", "http://x.org/a.pdf")].length := by
  decide

/-- C7 amended: with unchanged remote behaviour and state carried over, the
second run downloads nothing; and if no entry failed in the first run, the
second run skips every entry (and changes nothing).  Entries that failed the
first run are retried and fail again, so they are not skipped. -/
theorem run_twice_amended (oracle : String → Nat → AttemptResult)
    (now : String) (st : DState) (es : List (String × String)) :
    (runEntries oracle now (runEntries oracle now st es).1 es).2.1 = 0 ∧
    ((runEntries oracle now st es).2.2.2 = 0 →
      runEntries oracle now (runEntries oracle now st es).1 es =
        ((runEntries oracle now st es).1, 0, es.length, 0)) := by
  constructor
  · exact runEntries_no_downloads oracle now es (runEntries oracle now st es).1
      (fun e he => runEntries_coverage oracle now es st e he)
  · intro hf
    exact runEntries_all_skip oracle now es (runEntries oracle now st es).1
      (fun e he => runEntries_marked_of_no_failed oracle now es st hf e he)

/-- C7 amended witness: a successful first run makes the second run skip its
entry. -/
theorem run_twice_amended_witness :
    (runEntries (fun _ _ => .success [7]) "now"
        (runEntries (fun _ _ => .success [7]) "now"
          (⟨⟨[]⟩, none, []⟩ : DState) [("T", "http://x.org/a.pdf")]).1
        [("T", "http://x.org/a.pdf")]).2.1 = 0 ∧
    runEntries (fun _ _ => .success [7]) "now"
        (runEntries (fun _ _ => .success [7]) "now"
          (⟨⟨[]⟩, none, []⟩ : DState) [("T", "http://x.org/a.pdf")]).1
        [("T", "http://x.org/a.pdf")] =
      ((runEntries (fun _ _ => .success [7]) "now"
          (⟨⟨[]⟩, none, []⟩ : DState) [("T", "http://x.org/a.pdf")]).1, 0,
        [("T", "http://x.org/a.pdf")].length, 0) :=
  ⟨(run_twice_amended (fun _ _ => .success [7]) "now" ⟨⟨[]⟩, none, []⟩
      [("T", "http://x.org/a.pdf")]).1,
   (run_twice_amended (fun _ _ => .success [7]) "now" ⟨⟨[]⟩, none, []⟩
      [("T", "http://x.org/a.pdf")]).2 (by decide)⟩

/-! ## Claim C8 -/

/-- `pageLoop` equation on a delivered body. -/
theorem pageLoop_ok (api : String → String → Int → ApiResponse)
    (pid nid : String) (off : Int) (f : Nat) (tfr : Fragment)
    (h : api pid nid off = .ok tfr) :
    pageLoop api pid nid off (f + 1) =
      (if pyStrip tfr.text = "" then []
       else if (tfr.anchors.filter (fun a => isLibraryHref a.href)).isEmpty = true then []
       else batchRecords tfr ++ pageLoop api pid nid (off + 10) f) := by
  conv_lhs => unfold pageLoop
  rw [h]

/-- The pagination loop over `n` non-empty batches followed by a terminating
response: the offsets queried are `off, off + 10, …, off + 10·(n-1)`, and the
collected records are the batch records in batch order. -/
theorem pageLoop_of_batches (api : String → String → Int → ApiResponse)
    (pid nid : String) :
    ∀ (n : Nat) (frag : Nat → Fragment) (off : Int) (fuel : Nat), n < fuel →
      (∀ i < n, api pid nid (off + 10 * (i : Int)) = .ok (frag i)) →
      (∀ i < n, pyStrip (frag i).text ≠ "" ∧
        ((frag i).anchors.filter (fun a => isLibraryHref a.href)).isEmpty = false) →
      ∀ tfinal : Fragment, api pid nid (off + 10 * (n : Int)) = .ok tfinal →
        (pyStrip tfinal.text = "" ∨
          (tfinal.anchors.filter (fun a => isLibraryHref a.href)).isEmpty = true) →
      pageLoop api pid nid off fuel =
        ((List.range n).map (fun i => batchRecords (frag i))).flatten := by
  intro n
  induction n with
  | zero =>
    intro frag off fuel hfuel _ _ tfinal hterm hstop
    cases fuel with
    | zero => omega
    | succ f =>
      have hterm0 : api pid nid off = .ok tfinal := by
        have : off + 10 * ((0 : Nat) : Int) = off := by push_cast; ring
        rw [← this]
        exact hterm
      rw [pageLoop_ok api pid nid off f tfinal hterm0]
      rcases hstop with hs | hs
      · rw [if_pos hs]
        rfl
      · by_cases hs2 : pyStrip tfinal.text = ""
        · rw [if_pos hs2]
          rfl
        · rw [if_neg hs2, hs]
          rfl
  | succ n ih =>
    intro frag off fuel hfuel hbatch hnonempty tfinal hterm hstop
    cases fuel with
    | zero => omega
    | succ f =>
      have hb0 : api pid nid off = .ok (frag 0) := by
        have : off + 10 * ((0 : Nat) : Int) = off := by push_cast; ring
        rw [← this]
        exact hbatch 0 (Nat.succ_pos n)
      have hne0 := hnonempty 0 (Nat.succ_pos n)
      rw [pageLoop_ok api pid nid off f (frag 0) hb0, if_neg hne0.1, hne0.2]
      have hrec := ih (fun i => frag (i + 1)) (off + 10) f (by omega)
        (fun i hi => by
          have hcast : off + 10 + 10 * (i : Int) = off + 10 * ((i + 1 : Nat) : Int) := by
            push_cast; ring
          rw [hcast]
          exact hbatch (i + 1) (by omega))
        (fun i hi => hnonempty (i + 1) (by omega))
        tfinal
        (by
          have hcast : off + 10 + 10 * (n : Int) = off + 10 * ((n + 1 : Nat) : Int) := by
            push_cast; ring
          rw [hcast]
          exact hterm)
        hstop
      simp only [Bool.false_eq_true, if_false]
      rw [hrec, List.range_succ_eq_map, List.map_cons, List.map_map]
      rfl

/-- C8: with a usable Load More affordance carrying `pid`, `base_nid` and a
parsable starting offset, and a response sequence of `n` batches that are
non-empty and contain matching anchors, followed by a response whose body is
empty/whitespace-only or has no matching anchors, `fetch_all_cases` stops at
that response and returns the titled records of the initial page followed by
those of the `n` batches in batch order, the API being queried at offsets
`off0, off0+10, …, off0+10·n`. -/
theorem fetch_all_cases_pagination (page : Page)
    (api : String → String → Int → ApiResponse) (fuel : Nat)
    (href pid nid : String) (off0 : Int) (n : Nat) (frag : Nat → Fragment)
    (tfinal : Fragment)
    (hlm : page.loadMoreHref = some href)
    (hne : href ≠ "")
    (hpid : firstParam (parse_qs (queryOf href)) "pid" = some pid)
    (hnid : firstParam (parse_qs (queryOf href)) "base_nid" = some nid)
    (hoff : pyInt? ((firstParam (parse_qs (queryOf href)) "offset").getD "10") =
      some off0)
    (hbatch : ∀ i < n, api pid nid (off0 + 10 * (i : Int)) = .ok (frag i))
    (hnonempty : ∀ i < n, pyStrip (frag i).text ≠ "" ∧
      ((frag i).anchors.filter (fun a => isLibraryHref a.href)).isEmpty = false)
    (hterm : api pid nid (off0 + 10 * (n : Int)) = .ok tfinal)
    (hstop : pyStrip tfinal.text = "" ∨
      (tfinal.anchors.filter (fun a => isLibraryHref a.href)).isEmpty = true)
    (hfuel : n < fuel) :
    fetch_all_cases page api fuel =
      some (initialRecords page ++
        ((List.range n).map (fun i => batchRecords (frag i))).flatten) := by
  simp only [fetch_all_cases, hlm, hpid, hnid, hoff]
  rw [if_neg hne]
  rw [pageLoop_of_batches api pid nid n frag off0 fuel hfuel hbatch hnonempty
    tfinal hterm hstop]

/-- C8 witness: one non-empty batch at offset 10 followed by a
whitespace-only body at offset 20. -/
theorem fetch_all_cases_pagination_witness :
    fetch_all_cases
      ⟨[⟨"/teaching-resources-library/x", some "A", [], none⟩],
       some "/api/loadmore/dynamic_list_master?pid=66387&offset=10&base_nid=19867"⟩
      (fun _ _ off => if off = 10 then
          .ok ⟨"<a>", [⟨"/teaching-resources-library/y", some "B", [], none⟩]⟩
        else .ok ⟨"  ", []⟩)
      3 =
    some (initialRecords
        ⟨[⟨"/teaching-resources-library/x", some "A", [], none⟩],
         some "/api/loadmore/dynamic_list_master?pid=66387&offset=10&base_nid=19867"⟩ ++
      ((List.range 1).map (fun i => batchRecords ((fun _ =>
          (⟨"<a>", [⟨"/teaching-resources-library/y", some "B", [], none⟩]⟩ :
            Fragment)) i))).flatten) :=
  fetch_all_cases_pagination
    ⟨[⟨"/teaching-resources-library/x", some "A", [], none⟩],
     some "/api/loadmore/dynamic_list_master?pid=66387&offset=10&base_nid=19867"⟩
    (fun _ _ off => if off = 10 then
        .ok ⟨"<a>", [⟨"/teaching-resources-library/y", some "B", [], none⟩]⟩
      else .ok ⟨"  ", []⟩)
    3 "/api/loadmore/dynamic_list_master?pid=66387&offset=10&base_nid=19867"
    "66387" "19867" 10 1
    (fun _ => ⟨"<a>", [⟨"/teaching-resources-library/y", some "B", [], none⟩]⟩)
    ⟨"  ", []⟩
    rfl (by decide) (by decide) (by decide) (by decide)
    (by decide) (by decide) (by decide) (Or.inl (by decide)) (by decide)
